import Mathlib

/-!
Verification development for the extraction pipeline in
`src/helpers/geminiHelper.py` (content packer, extraction orchestrator,
business-record data model).

Python strings are embedded as lists of characters (`Str`), so slicing,
concatenation and length match Python's code-point semantics.  A page dict
is embedded as a structure with optional `url` and `content` entries
(modelling `page.get(key, default)`).  The external Gemini call is an
oracle parameter (`GenResult`): per the interface contract it either
returns a schema-conforming `BusinessData` value or fails with an
exception; Python exceptions are embedded as `Except`, and the single
`logger.error` call in the failure path is embedded as an optional log
message returned alongside the record.
-/

abbrev Str := List Char

/-- Embed a Lean string literal as a character list. -/
def lit (s : String) : Str := s.data

/-- One crawled page dict: `url` / `content` keys may be absent. -/
structure Page where
  url : Option Str
  content : Option Str

/-- `max_chars_per_page = 50000` in `_prepare_content_for_extraction`. -/
def maxCharsPerPage : Nat := 50000

/-- `max_total_chars = 500000` in `_prepare_content_for_extraction`. -/
def maxTotalChars : Nat := 500000

/-- The truncation marker appended to over-long pages. -/
def truncMarker : Str := lit "\n...[content truncated]"

/-- Whitespace as stripped by Python's `str.strip()` (ASCII part). -/
def isPythonSpace (c : Char) : Bool :=
  c = ' ' || c = '\t' || c = '\n' || c = '\r' || c = '\x0b' || c = '\x0c'

/-- `not content.strip()`: the content is empty or whitespace-only. -/
def isBlank (s : Str) : Bool := s.all isPythonSpace

/-- `page.get("url", "Unknown URL")`. -/
def pageUrl (p : Page) : Str := p.url.getD (lit "Unknown URL")

/-- `page.get("content", "")`. -/
def pageContent (p : Page) : Str := p.content.getD []

/-- Per-page truncation: `content[:50000] + "\n...[content truncated]"`
when the content exceeds the per-page cap, else the content unchanged. -/
def truncateContent (c : Str) : Str :=
  if c.length > maxCharsPerPage then c.take maxCharsPerPage ++ truncMarker else c

/-- The framed excerpt `f"--- PAGE: {url} ---\n{content}\n\n"` built from a
page, with the per-page truncation applied to its content. -/
def pageText (p : Page) : Str :=
  lit "--- PAGE: " ++ pageUrl p ++ lit " ---\n" ++
    truncateContent (pageContent p) ++ lit "\n\n"

/-- A page survives the blank-page skip (its content is not blank). -/
def qualifies (p : Page) : Bool := !isBlank (pageContent p)

/-- The packing loop of `_prepare_content_for_extraction`: skip blank
pages, and before appending a framed excerpt check whether the running
total plus its length would exceed the global budget; if so, `break`
(drop all remaining pages). -/
def packPages : List Page → Nat → List Str
  | [], _ => []
  | p :: rest, total =>
    if isBlank (pageContent p) then packPages rest total
    else
      if total + (pageText p).length > maxTotalChars then []
      else pageText p :: packPages rest (total + (pageText p).length)

/-- `_prepare_content_for_extraction`: concatenation of the framed
excerpts emitted by the packing loop started with `total_chars = 0`. -/
def _prepare_content_for_extraction (pages : List Page) : Str :=
  (packPages pages 0).flatten

/-- Sum of the framed (post-truncation) excerpt lengths of the qualifying
pages: the combined framed size of the input. -/
def framedSizes (pages : List Page) : Nat :=
  ((pages.filter qualifies).map fun p => (pageText p).length).sum

/-- Pydantic `Professional` model. -/
structure Professional where
  name : String
  role : String
  is_available : Bool := true

/-- Pydantic `BusinessHours` model. -/
structure BusinessHours where
  monday : String := ""
  tuesday : String := ""
  wednesday : String := ""
  thursday : String := ""
  friday : String := ""
  saturday : String := ""
  sunday : String := ""

/-- Pydantic `BusinessData` model, fields in source order with the source
defaults. -/
structure BusinessData where
  name : String := ""
  phoneNumber : String := ""
  address : String := ""
  city : String := ""
  state : String := ""
  pincode : String := ""
  website : String := ""
  email : String := ""
  businessHours : BusinessHours := {}
  is_24_7 : Bool := false
  holidayClosures : String := ""
  professionals : List Professional := []
  manager : String := ""
  operationsLead : String := ""
  servicesOffered : List String := []
  servicesNotOffered : String := ""
  specialties : List String := []

/-- The all-default record `BusinessData()`. -/
def defaultBusinessData : BusinessData := {}

/-- The scalar string fields of `BusinessData`, as (pydantic field name,
accessor) pairs, in source order. -/
def businessDataStringFields : List (String × (BusinessData → String)) :=
  [("name", BusinessData.name),
   ("phoneNumber", BusinessData.phoneNumber),
   ("address", BusinessData.address),
   ("city", BusinessData.city),
   ("state", BusinessData.state),
   ("pincode", BusinessData.pincode),
   ("website", BusinessData.website),
   ("email", BusinessData.email),
   ("holidayClosures", BusinessData.holidayClosures),
   ("manager", BusinessData.manager),
   ("operationsLead", BusinessData.operationsLead),
   ("servicesNotOffered", BusinessData.servicesNotOffered)]

/-- The configured client (`genai.Client(api_key=api_key)`). -/
structure GeminiClient where
  api_key : Str

/-- The `ValueError` message of `get_gemini_client`. -/
def keyErrMsg : String :=
  "Gemini API key is required. Set GEMINI_API_KEY environment variable."

/-- `get_gemini_client`: raise `ValueError` when the configured key is
absent or empty (Python falsiness of `settings.gemini_api_key`), else
return the constructed client. -/
def get_gemini_client (apiKey : Option Str) : Except String GeminiClient :=
  if (apiKey.getD []).isEmpty then .error keyErrMsg
  else .ok ⟨apiKey.getD []⟩

/-- Outcome of the single external `generate_content` call: per the
interface contract the service either yields a value conforming to the
`BusinessData` schema or raises an exception. -/
inductive GenResult where
  | success (data : BusinessData)
  | failure (err : String)

/-- The body of the `try` block and its `except` handler: on success the
parsed record is returned unmodified with nothing logged; on any
exception the error is logged (`logger.error`) and `BusinessData()` is
returned. -/
def runExtraction (client : GeminiClient) (pages : List Page)
    (gen : GenResult) : BusinessData × Option String :=
  let _combined := _prepare_content_for_extraction pages
  match gen with
  | .success d => (d, none)
  | .failure e => (defaultBusinessData, some ("Error calling Gemini API: " ++ e))

/-- `if client is None: client = get_gemini_client()`. -/
def resolveClient (apiKey : Option Str) (client : Option GeminiClient) :
    Except String GeminiClient :=
  match client with
  | some c => .ok c
  | none => get_gemini_client apiKey

/-- `extract_business_data`: resolve the client (which may raise the
configuration `ValueError`), then run the guarded extraction, which never
raises. -/
def extract_business_data (apiKey : Option Str) (client : Option GeminiClient)
    (pages : List Page) (gen : GenResult) :
    Except String (BusinessData × Option String) :=
  (resolveClient apiKey client).map fun c => runExtraction c pages gen

/-- Length of a joined list of character lists. -/
lemma join_length_sum (L : List Str) : L.flatten.length = (L.map List.length).sum := by
  induction L with
  | nil => rfl
  | cons a l ih => simp [List.flatten_cons, List.length_append, ih]

/-- Budget invariant of the packing loop: starting from `total`, either the
emitted text fits in the remaining budget or nothing is emitted. -/
lemma pack_budget (pages : List Page) :
    ∀ total : Nat, total + ((packPages pages total).flatten).length ≤ maxTotalChars ∨
      packPages pages total = [] := by
  induction pages with
  | nil => intro total; right; rfl
  | cons p ps ih =>
    intro total
    by_cases hb : isBlank (pageContent p) = true
    · have hrw : packPages (p :: ps) total = packPages ps total := by
        simp [packPages, hb]
      rw [hrw]; exact ih total
    · by_cases hcut : total + (pageText p).length > maxTotalChars
      · right; simp [packPages, hb, hcut]
      · have hrw : packPages (p :: ps) total =
            pageText p :: packPages ps (total + (pageText p).length) := by
          simp [packPages, hb, hcut]
        rw [hrw]
        rcases ih (total + (pageText p).length) with h | h
        · left
          simp only [List.flatten_cons, List.length_append]
          omega
        · left
          rw [h]
          simp only [List.flatten_cons, List.flatten_nil, List.append_nil]
          omega

/-- The packed output always fits the global budget (shared helper). -/
lemma prepare_length_le (pages : List Page) :
    (_prepare_content_for_extraction pages).length ≤ maxTotalChars := by
  rcases pack_budget pages 0 with h | h
  · simpa [_prepare_content_for_extraction] using h
  · simp [_prepare_content_for_extraction, h, maxTotalChars]

/-- Structure of the packing loop's output: the input splits into a kept
prefix, whose qualifying pages are exactly the emitted excerpts in order,
and a dropped suffix which is either empty or begins at the first
qualifying page that failed the budget check. -/
lemma pack_split (pages : List Page) :
    ∀ total : Nat, ∃ kept rest,
      pages = kept ++ rest ∧
      packPages pages total = (kept.filter qualifies).map pageText ∧
      (rest = [] ∨ ∃ p rest2, rest = p :: rest2 ∧ qualifies p = true ∧
        total + framedSizes kept + (pageText p).length > maxTotalChars) := by
  induction pages with
  | nil => intro total; exact ⟨[], [], rfl, rfl, Or.inl rfl⟩
  | cons p ps ih =>
    intro total
    by_cases hb : isBlank (pageContent p) = true
    · have hq : qualifies p = false := by simp [qualifies, hb]
      obtain ⟨kept, rest, h1, h2, h3⟩ := ih total
      refine ⟨p :: kept, rest, by rw [h1]; rfl, ?_, ?_⟩
      · have hrw : packPages (p :: ps) total = packPages ps total := by
          simp [packPages, hb]
        rw [hrw, h2]
        simp [List.filter_cons, hq]
      · rcases h3 with h | ⟨q, r2, hr, hq2, hbud⟩
        · exact Or.inl h
        · refine Or.inr ⟨q, r2, hr, hq2, ?_⟩
          have hfs : framedSizes (p :: kept) = framedSizes kept := by
            simp [framedSizes, List.filter_cons, hq]
          rw [hfs]; exact hbud
    · have hbf : isBlank (pageContent p) = false := by
        simpa using hb
      have hq : qualifies p = true := by simp [qualifies, hbf]
      by_cases hcut : total + (pageText p).length > maxTotalChars
      · refine ⟨[], p :: ps, rfl, ?_, Or.inr ⟨p, ps, rfl, hq, ?_⟩⟩
        · simp [packPages, hbf, hcut]
        · simpa [framedSizes] using hcut
      · obtain ⟨kept, rest, h1, h2, h3⟩ := ih (total + (pageText p).length)
        refine ⟨p :: kept, rest, by rw [h1]; rfl, ?_, ?_⟩
        · have hrw : packPages (p :: ps) total =
              pageText p :: packPages ps (total + (pageText p).length) := by
            simp [packPages, hbf, hcut]
          rw [hrw, h2]
          simp [List.filter_cons, hq]
        · rcases h3 with h | ⟨q, r2, hr, hq2, hbud⟩
          · exact Or.inl h
          · refine Or.inr ⟨q, r2, hr, hq2, ?_⟩
            have hfs : framedSizes (p :: kept) =
                (pageText p).length + framedSizes kept := by
              simp [framedSizes, List.filter_cons, hq]
            rw [hfs]
            omega

/-- Claim C9: for every input sequence of pages the packed output's length
is at most 500,000 characters with no framing-overhead overshoot, because
the budget check counts each excerpt's full framed length before
appending. -/
theorem c9_strict_budget (pages : List Page) :
    (_prepare_content_for_extraction pages).length ≤ maxTotalChars :=
  prepare_length_le pages

/-- Claim C5: when the combined framed size of the qualifying pages
exceeds 500,000 characters, the packed output fits the 500,000-character
budget (even without the claim's one-page framing-overhead allowance), and
the input splits at the first qualifying page that fails the budget check:
the output consists exactly of the framed excerpts of the pages before
that point, so every page at or beyond it is entirely absent. -/
theorem c5_budget_cutoff (pages : List Page)
    (h : framedSizes pages > maxTotalChars) :
    (_prepare_content_for_extraction pages).length ≤ maxTotalChars ∧
    ∃ kept p rest, pages = kept ++ p :: rest ∧
      packPages pages 0 = (kept.filter qualifies).map pageText ∧
      qualifies p = true ∧
      framedSizes kept + (pageText p).length > maxTotalChars := by
  refine ⟨prepare_length_le pages, ?_⟩
  obtain ⟨kept, rest, h1, h2, h3⟩ := pack_split pages 0
  rcases h3 with hrest | ⟨p, rest2, hr, hq, hbud⟩
  · exfalso
    subst hrest
    rw [List.append_nil] at h1
    subst h1
    have hle := prepare_length_le pages
    have heq : (_prepare_content_for_extraction pages).length = framedSizes pages := by
      simp only [_prepare_content_for_extraction]
      rw [h2, join_length_sum, List.map_map]
      rfl
    omega
  · exact ⟨kept, p, rest2, by rw [h1, hr], h2, hq, by simpa using hbud⟩

/-- Framed size of a single qualifying page. -/
lemma framedSizes_singleton (p : Page) (h : qualifies p = true) :
    framedSizes [p] = (pageText p).length := by
  simp [framedSizes, List.filter_cons, h]

/-- Concrete input for the C5 witness: a single page whose URL alone blows
the global budget. -/
def c5page : Page := ⟨some (List.replicate 500001 'a'), some (lit "b")⟩

/-- Witness for C5 at a concrete input whose combined framed size exceeds
the budget. -/
theorem c5_budget_cutoff_witness :
    framedSizes [c5page] > maxTotalChars ∧
    ((_prepare_content_for_extraction [c5page]).length ≤ maxTotalChars ∧
      ∃ kept p rest, [c5page] = kept ++ p :: rest ∧
        packPages [c5page] 0 = (kept.filter qualifies).map pageText ∧
        qualifies p = true ∧
        framedSizes kept + (pageText p).length > maxTotalChars) := by
  have hq : qualifies c5page = true := by decide
  have h1 : (lit "--- PAGE: ").length = 10 := by decide
  have h2 : (lit " ---\n").length = 5 := by decide
  have h3 : (lit "\n\n").length = 2 := by decide
  have hu : pageUrl c5page = List.replicate 500001 'a' := rfl
  have hc : truncateContent (pageContent c5page) = lit "b" := by decide
  have hx : (lit "b").length = 1 := by decide
  have hlen : (pageText c5page).length = 500019 := by
    show (lit "--- PAGE: " ++ pageUrl c5page ++ lit " ---\n" ++
      truncateContent (pageContent c5page) ++ lit "\n\n").length = 500019
    rw [hu, hc, List.length_append, List.length_append, List.length_append,
      List.length_append, List.length_replicate, h1, h2, h3, hx]
  have h : framedSizes [c5page] > maxTotalChars := by
    rw [framedSizes_singleton c5page hq, hlen]
    decide
  exact ⟨h, c5_budget_cutoff [c5page] h⟩

/-- Claim C7: a blank page (empty or whitespace-only content) contributes
nothing to the packed output and does not count against the total budget
(deleting it anywhere leaves the loop's result, at any running total,
unchanged); and when no page qualifies the packed output is empty. -/
theorem c7_blank_skip :
    (∀ (pre post : List Page) (b : Page) (total : Nat),
        isBlank (pageContent b) = true →
        packPages (pre ++ b :: post) total = packPages (pre ++ post) total) ∧
    (∀ pages : List Page, (∀ p ∈ pages, isBlank (pageContent p) = true) →
        _prepare_content_for_extraction pages = []) := by
  constructor
  · intro pre post b total hb
    induction pre generalizing total with
    | nil => simp [packPages, hb]
    | cons q pre' ih =>
      by_cases hq : isBlank (pageContent q) = true
      · have l1 : packPages ((q :: pre') ++ b :: post) total =
            packPages (pre' ++ b :: post) total := by
          simp [packPages, hq]
        have l2 : packPages ((q :: pre') ++ post) total =
            packPages (pre' ++ post) total := by
          simp [packPages, hq]
        rw [l1, l2]
        exact ih total
      · have hqf : isBlank (pageContent q) = false := by simpa using hq
        by_cases hcut : total + (pageText q).length > maxTotalChars
        · have l1 : packPages ((q :: pre') ++ b :: post) total = [] := by
            simp [packPages, hqf, hcut]
          have l2 : packPages ((q :: pre') ++ post) total = [] := by
            simp [packPages, hqf, hcut]
          rw [l1, l2]
        · have l1 : packPages ((q :: pre') ++ b :: post) total =
              pageText q :: packPages (pre' ++ b :: post)
                (total + (pageText q).length) := by
            simp [packPages, hqf, hcut]
          have l2 : packPages ((q :: pre') ++ post) total =
              pageText q :: packPages (pre' ++ post)
                (total + (pageText q).length) := by
            simp [packPages, hqf, hcut]
          rw [l1, l2, ih (total + (pageText q).length)]
  · intro pages
    induction pages with
    | nil => intro _; rfl
    | cons p ps ih =>
      intro hall
      have hp : isBlank (pageContent p) = true := hall p (by simp)
      have hrw : packPages (p :: ps) 0 = packPages ps 0 := by
        simp [packPages, hp]
      have : _prepare_content_for_extraction (p :: ps) =
          _prepare_content_for_extraction ps := by
        simp only [_prepare_content_for_extraction]
        rw [hrw]
      rw [this]
      exact ih fun q hq2 => hall q (by simp [hq2])

/-- Concrete blank page for the C7 witness. -/
def blankPage : Page := ⟨some (lit "u"), some (lit " ")⟩

/-- Witness for C7 at a concrete whitespace-only page. -/
theorem c7_blank_skip_witness :
    (isBlank (pageContent blankPage) = true ∧
      packPages ([] ++ blankPage :: []) 0 = packPages ([] ++ []) 0) ∧
    ((∀ p ∈ [blankPage], isBlank (pageContent p) = true) ∧
      _prepare_content_for_extraction [blankPage] = []) := by
  have hb : isBlank (pageContent blankPage) = true := by decide
  have hall : ∀ p ∈ [blankPage], isBlank (pageContent p) = true := by
    intro p hp
    rw [List.mem_singleton] at hp
    rw [hp]
    exact hb
  exact ⟨⟨hb, c7_blank_skip.1 [] [] blankPage 0 hb⟩,
    ⟨hall, c7_blank_skip.2 [blankPage] hall⟩⟩

/-- Unfolding of the packing loop when the head page is non-blank but its
framed excerpt fails the budget check: the loop stops with nothing more
emitted. -/
lemma packPages_cons_cut (p : Page) (rest : List Page) (total : Nat)
    (hb : isBlank (pageContent p) = false)
    (hcut : total + (pageText p).length > maxTotalChars) :
    packPages (p :: rest) total = [] := by
  simp [packPages, hb, hcut]

/-- Unfolding of the packing loop when the head page is non-blank and its
framed excerpt passes the budget check. -/
lemma packPages_cons_fit (p : Page) (rest : List Page) (total : Nat)
    (hb : isBlank (pageContent p) = false)
    (hcut : ¬ total + (pageText p).length > maxTotalChars) :
    packPages (p :: rest) total =
      pageText p :: packPages rest (total + (pageText p).length) := by
  simp [packPages, hb, hcut]

/-- Unfolding of the packing loop when the head page is blank. -/
lemma packPages_cons_blank (p : Page) (rest : List Page) (total : Nat)
    (hb : isBlank (pageContent p) = true) :
    packPages (p :: rest) total = packPages rest total := by
  simp [packPages, hb]

/-- Claim C6: a page whose content exceeds 50,000 characters appears in
its framed excerpt as exactly the first 50,000 characters of its content
followed by the truncation marker. -/
theorem c6_truncation (p : Page)
    (h : (pageContent p).length > maxCharsPerPage) :
    pageText p = lit "--- PAGE: " ++ pageUrl p ++ lit " ---\n" ++
        ((pageContent p).take maxCharsPerPage ++ truncMarker) ++ lit "\n\n" ∧
    ((pageContent p).take maxCharsPerPage).length = maxCharsPerPage := by
  constructor
  · simp [pageText, truncateContent, h]
  · rw [List.length_take]
    exact Nat.min_eq_left (Nat.le_of_lt h)

/-- Concrete over-long page for the C6 witness. -/
def c6page : Page := ⟨some (lit "u"), some (List.replicate 50001 'a')⟩

/-- Witness for C6 at a concrete page with 50,001 content characters. -/
theorem c6_truncation_witness :
    (pageContent c6page).length > maxCharsPerPage ∧
    (pageText c6page = lit "--- PAGE: " ++ pageUrl c6page ++ lit " ---\n" ++
        ((pageContent c6page).take maxCharsPerPage ++ truncMarker) ++
        lit "\n\n" ∧
      ((pageContent c6page).take maxCharsPerPage).length = maxCharsPerPage) := by
  have h : (pageContent c6page).length > maxCharsPerPage := by
    show (List.replicate 50001 'a').length > maxCharsPerPage
    rw [List.length_replicate]
    decide
  exact ⟨h, c6_truncation c6page h⟩

/-- Concrete counterexample page for C4: its URL alone makes the framed
excerpt exceed the global budget, so even as first page it is dropped. -/
def c4page : Page := ⟨some (List.replicate 500000 'a'), some (lit "x")⟩

/-- Claim C4 counterexample: a first page with non-blank content whose
framed excerpt exceeds 500,000 characters (pathological URL) is rejected
by the global budget check, so the packed output omits it entirely. -/
theorem c4_counterexample :
    isBlank (pageContent c4page) = false ∧
    _prepare_content_for_extraction [c4page] = [] := by
  have hb : isBlank (pageContent c4page) = false := by decide
  refine ⟨hb, ?_⟩
  have h1 : (lit "--- PAGE: ").length = 10 := by decide
  have h2 : (lit " ---\n").length = 5 := by decide
  have h3 : (lit "\n\n").length = 2 := by decide
  have hu : pageUrl c4page = List.replicate 500000 'a' := rfl
  have hc : truncateContent (pageContent c4page) = lit "x" := by decide
  have hx : (lit "x").length = 1 := by decide
  have hlen : (pageText c4page).length = 500018 := by
    show (lit "--- PAGE: " ++ pageUrl c4page ++ lit " ---\n" ++
      truncateContent (pageContent c4page) ++ lit "\n\n").length = 500018
    rw [hu, hc, List.length_append, List.length_append, List.length_append,
      List.length_append, List.length_replicate, h1, h2, h3, hx]
  have hcut : 0 + (pageText c4page).length > maxTotalChars := by
    rw [hlen]
    decide
  have hpack : packPages [c4page] 0 = [] :=
    packPages_cons_cut c4page [] 0 hb hcut
  show (packPages [c4page] 0).flatten = []
  rw [hpack]
  rfl

/-- Claim C4, amended: the first page with non-blank content is included
in the packed output whenever its framed excerpt (after per-page
truncation) fits the 500,000-character budget; only a framed excerpt that
alone exceeds the budget (a pathological URL) can be dropped. -/
theorem c4_first_page_included (pre : List Page) (p : Page)
    (post : List Page)
    (hpre : ∀ q ∈ pre, isBlank (pageContent q) = true)
    (hp : isBlank (pageContent p) = false)
    (hfit : (pageText p).length ≤ maxTotalChars) :
    pageText p ∈ packPages (pre ++ p :: post) 0 := by
  revert hpre
  induction pre with
  | nil =>
    intro _
    have hcut : ¬ 0 + (pageText p).length > maxTotalChars := by omega
    rw [List.nil_append, packPages_cons_fit p post 0 hp hcut]
    exact List.mem_cons_self _ _
  | cons q pre' ih =>
    intro hpre
    have hq : isBlank (pageContent q) = true := hpre q (by simp)
    rw [List.cons_append, packPages_cons_blank q (pre' ++ p :: post) 0 hq]
    exact ih fun r hr => hpre r (by simp [hr])

/-- Concrete small page for the C4 witness. -/
def c4okPage : Page := ⟨some (lit "u"), some (lit "b")⟩

/-- Witness for the amended C4 at a concrete in-budget first page. -/
theorem c4_first_page_included_witness :
    ((∀ q ∈ ([] : List Page), isBlank (pageContent q) = true) ∧
      isBlank (pageContent c4okPage) = false ∧
      (pageText c4okPage).length ≤ maxTotalChars) ∧
    pageText c4okPage ∈ packPages ([] ++ c4okPage :: []) 0 := by
  have h1 : ∀ q ∈ ([] : List Page), isBlank (pageContent q) = true := by simp
  have h2 : isBlank (pageContent c4okPage) = false := by decide
  have h3 : (pageText c4okPage).length ≤ maxTotalChars := by decide
  exact ⟨⟨h1, h2, h3⟩, c4_first_page_included [] c4okPage [] h1 h2 h3⟩

/-- Claim C10: a page without a url key is packed with the placeholder
header (its framed excerpt is the placeholder-framed content, and the
packing loop treats it exactly like a page whose url is the placeholder),
while a page without a content key has empty content and is skipped. -/
theorem c10_missing_keys :
    (∀ c : Option Str, pageText ⟨none, c⟩ =
        lit "--- PAGE: Unknown URL ---\n" ++
          truncateContent (c.getD []) ++ lit "\n\n") ∧
    (∀ (c : Option Str) (rest : List Page) (total : Nat),
        packPages (⟨none, c⟩ :: rest) total =
          packPages (⟨some (lit "Unknown URL"), c⟩ :: rest) total) ∧
    (∀ (u : Option Str) (rest : List Page) (total : Nat),
        packPages (⟨u, none⟩ :: rest) total = packPages rest total) := by
  refine ⟨fun c => ?_, fun c rest total => rfl, fun u rest total => rfl⟩
  show lit "--- PAGE: " ++ pageUrl ⟨none, c⟩ ++ lit " ---\n" ++
      truncateContent (pageContent ⟨none, c⟩) ++ lit "\n\n" = _
  have hA : lit "--- PAGE: " ++ lit "Unknown URL" ++ lit " ---\n" =
      lit "--- PAGE: Unknown URL ---\n" := by decide
  rw [show pageUrl ⟨none, c⟩ = lit "Unknown URL" from rfl, hA]
  rfl

/-- Claim C3 counterexample: the Business Record type has no scalar string
field named phoneNumbers (the source field is phoneNumber). -/
theorem c3_counterexample :
    ¬ ("phoneNumbers" ∈ businessDataStringFields.map Prod.fst) := by
  decide

/-- Claim C3, amended: the scalar string fields of the Business Record
type are exactly name, phoneNumber, address, city, state, pincode,
website, email, holidayClosures, manager, operationsLead and
servicesNotOffered, each defaulting to the empty string. -/
theorem c3_amended_fields :
    businessDataStringFields.map Prod.fst =
      ["name", "phoneNumber", "address", "city", "state", "pincode",
       "website", "email", "holidayClosures", "manager", "operationsLead",
       "servicesNotOffered"] ∧
    businessDataStringFields.all
      (fun f => f.2 defaultBusinessData == "") = true :=
  ⟨rfl, rfl⟩

/-- Claim C1: once a client is available (one was passed in, or the
configured key is non-empty so construction succeeds), `extract` returns a
well-typed Business Record for every input, including the empty sequence
and a failing external call — it never raises to the caller. -/
theorem c1_extract_total (apiKey : Option Str) (client : Option GeminiClient)
    (pages : List Page) (gen : GenResult)
    (h : client.isSome = true ∨ (apiKey.getD []).isEmpty = false) :
    ∃ r : BusinessData × Option String,
      extract_business_data apiKey client pages gen = .ok r := by
  cases client with
  | some c => exact ⟨runExtraction c pages gen, rfl⟩
  | none =>
    rcases h with h | h
    · simp at h
    · refine ⟨runExtraction ⟨apiKey.getD []⟩ pages gen, ?_⟩
      simp [extract_business_data, resolveClient, get_gemini_client, h,
        Except.map]

/-- A concrete client for witnesses. -/
def stubClient : GeminiClient := ⟨lit "key"⟩

/-- Witness for C1: a provided client, empty page list, failing call. -/
theorem c1_extract_total_witness :
    ((some stubClient).isSome = true ∨
      ((none : Option Str).getD []).isEmpty = false) ∧
    ∃ r : BusinessData × Option String,
      extract_business_data none (some stubClient) [] (.failure "boom") =
        .ok r := by
  have h : (some stubClient).isSome = true ∨
      ((none : Option Str).getD []).isEmpty = false := Or.inl rfl
  exact ⟨h, c1_extract_total none (some stubClient) [] (.failure "boom") h⟩

/-- Claim C2: whenever the external call fails, `extract` logs the
failure and returns the all-default Business Record: every string field
empty, every list empty, `is_24_7 = false`, every businessHours day
empty. -/
theorem c2_failure_defaults (apiKey : Option Str)
    (client : Option GeminiClient) (c : GeminiClient) (pages : List Page)
    (e : String) (h : resolveClient apiKey client = .ok c) :
    extract_business_data apiKey client pages (.failure e) =
      .ok ({ name := "", phoneNumber := "", address := "", city := "",
             state := "", pincode := "", website := "", email := "",
             businessHours := { monday := "", tuesday := "",
                                wednesday := "", thursday := "",
                                friday := "", saturday := "",
                                sunday := "" },
             is_24_7 := false, holidayClosures := "", professionals := [],
             manager := "", operationsLead := "", servicesOffered := [],
             servicesNotOffered := "", specialties := [] },
           some ("Error calling Gemini API: " ++ e)) := by
  simp [extract_business_data, h, Except.map, runExtraction,
    defaultBusinessData]

/-- Witness for C2 at a provided client and a concrete failing call. -/
theorem c2_failure_defaults_witness :
    resolveClient none (some stubClient) = .ok stubClient ∧
    extract_business_data none (some stubClient) [] (.failure "boom") =
      .ok ({ name := "", phoneNumber := "", address := "", city := "",
             state := "", pincode := "", website := "", email := "",
             businessHours := { monday := "", tuesday := "",
                                wednesday := "", thursday := "",
                                friday := "", saturday := "",
                                sunday := "" },
             is_24_7 := false, holidayClosures := "", professionals := [],
             manager := "", operationsLead := "", servicesOffered := [],
             servicesNotOffered := "", specialties := [] },
           some ("Error calling Gemini API: " ++ "boom")) :=
  ⟨rfl, c2_failure_defaults none (some stubClient) stubClient [] "boom" rfl⟩

/-- Claim C8: the missing-credential error is raised exactly at client
construction (iff the configured key is absent or empty); it is the only
error that can propagate out of `extract` (any propagated error is the
construction error, arising only when no client was passed in); and with
a constructed client, extraction never errors. -/
theorem c8_config_error_only :
    (∀ apiKey : Option Str,
        (∃ e, get_gemini_client apiKey = .error e) ↔
          (apiKey.getD []).isEmpty = true) ∧
    (∀ (apiKey : Option Str) (client : Option GeminiClient)
        (pages : List Page) (gen : GenResult) (e : String),
        extract_business_data apiKey client pages gen = .error e →
          client = none ∧ get_gemini_client apiKey = .error e) ∧
    (∀ (apiKey : Option Str) (c : GeminiClient) (pages : List Page)
        (gen : GenResult),
        ∃ r, extract_business_data apiKey (some c) pages gen = .ok r) := by
  refine ⟨fun apiKey => ?_, fun apiKey client pages gen e he => ?_,
    fun apiKey c pages gen => ⟨runExtraction c pages gen, rfl⟩⟩
  · constructor
    · rintro ⟨e, he⟩
      by_cases hk : (apiKey.getD []).isEmpty = true
      · exact hk
      · simp [get_gemini_client, hk] at he
    · intro hk
      exact ⟨keyErrMsg, by simp [get_gemini_client, hk]⟩
  · cases client with
    | some c => simp [extract_business_data, resolveClient, Except.map] at he
    | none =>
      refine ⟨rfl, ?_⟩
      cases hg : get_gemini_client apiKey with
      | ok c =>
        simp only [extract_business_data, resolveClient] at he
        rw [hg] at he
        simp [Except.map] at he
      | error e2 =>
        simp only [extract_business_data, resolveClient] at he
        rw [hg] at he
        simp [Except.map] at he
        subst he
        rfl

/-- Witness for C8: with no client and no key, `extract` propagates
exactly the construction error. -/
theorem c8_config_error_only_witness :
    extract_business_data none none [] (.failure "x") = .error keyErrMsg ∧
    ((none : Option GeminiClient) = none ∧
      get_gemini_client (none : Option Str) = .error keyErrMsg) := by
  have he : extract_business_data none none [] (.failure "x") =
      .error keyErrMsg := rfl
  exact ⟨he, c8_config_error_only.2.1 none none [] (.failure "x") keyErrMsg he⟩
